import Mathlib

/-
Verification of the ETL loader in populate_db2.py.

The file shallowly embeds the loader: each Python helper becomes a Lean
function over decoded text lines (a file is a List String of its lines with
trailing newlines removed, matching the rstrip of the source). Python str
operations used by the loader act on single-character separators only, so
they are modelled directly on the underlying character lists. Floating point
values produced by the Python float builtin are modelled as exact decimal
values (a canonical mantissa/exponent pair); this idealises IEEE rounding
and overflow, which no claim depends on. Python dicts are modelled as
association lists with insert-or-overwrite update, and Python sets as
deduplicated lists exposed through an arbitrary enumeration function, since
CPython set iteration order is not fixed across processes.
-/

/-! ## Python string primitives -/

/-- Whitespace test matching the characters relevant to the loader input. -/
def pyIsSpace (c : Char) : Bool := c = ' ' || c = '\t' || c = '\n' || c = '\r'

/-- Decimal digit test, as used by str.isdigit on ASCII data. -/
def pyIsDigit (c : Char) : Bool := 48 ≤ c.toNat && c.toNat ≤ 57

/-- Split a character list at every character satisfying p, keeping empty
pieces, as Python str.split with an explicit separator does. -/
def splitCharP (p : Char → Bool) : List Char → List (List Char)
  | [] => [[]]
  | a :: as =>
    match splitCharP p as with
    | [] => [[]]
    | h :: t => if p a then [] :: h :: t else (a :: h) :: t

/-- Python s.split(sep) for a one-character separator. -/
def pySplitOn (c : Char) (s : String) : List String :=
  (splitCharP (fun a => a = c) s.data).map String.mk

/-- Python s.strip(): remove leading and trailing whitespace. -/
def pyStrip (s : String) : String :=
  String.mk (((s.data.dropWhile pyIsSpace).reverse.dropWhile pyIsSpace).reverse)

/-- Python s.split() with no argument: maximal nonempty runs between
whitespace characters. -/
def pyWords (s : String) : List String :=
  ((splitCharP pyIsSpace s.data).map String.mk).filter (fun w => w ≠ "")

/-- Python " ".join(l). -/
def pyJoinSp : List String → String
  | [] => ""
  | [s] => s
  | s :: rest => s ++ " " ++ pyJoinSp rest

/-- Python s.replace(",", ""). -/
def removeCommas (s : String) : String := String.mk (s.data.filter (fun c => c ≠ ','))

/-- Value of a decimal digit character. -/
def digitVal (c : Char) : Nat := c.toNat - 48

/-- Value of a big-endian list of decimal digit characters. -/
def digitsToNat (cs : List Char) : Nat := cs.foldl (fun n c => n * 10 + digitVal c) 0

/-! ## Python float model

A parsed float literal is kept as an exact decimal value man * 10 ^ exp in
canonical form (mantissa zero with exponent zero, or mantissa not divisible
by ten), so that structural equality coincides with value equality. -/

structure PyFloat where
  man : Int
  exp : Int
deriving DecidableEq, Repr

/-- Canonical PyFloat from a sign, the mantissa digit characters and a
decimal exponent: trailing zero digits are folded into the exponent. -/
def mkPyFloat (neg : Bool) (mantDigits : List Char) (decExp : Int) : PyFloat :=
  let rev := mantDigits.reverse.dropWhile (fun c => c = '0')
  if rev.isEmpty then ⟨0, 0⟩
  else
    let stripped := rev.reverse
    let m : Nat := digitsToNat stripped
    let z : Nat := mantDigits.length - stripped.length
    ⟨if neg then -(m : Int) else (m : Int), decExp + (z : Int)⟩

/-- Longest digit run at the head of a character list, with the remainder. -/
def takeDigits (cs : List Char) : List Char × List Char :=
  (cs.takeWhile pyIsDigit, cs.dropWhile pyIsDigit)

/-- Optional leading sign; true means negative. -/
def splitSign : List Char → Bool × List Char
  | '+' :: rest => (false, rest)
  | '-' :: rest => (true, rest)
  | cs => (false, cs)

/-- Parse the tail after the mantissa of a float literal: either nothing, or
an exponent marker with optionally signed digits consuming all input. -/
def parseDecExp (cs : List Char) : Option Int :=
  match cs with
  | [] => some 0
  | c :: rest =>
    if c = 'e' ∨ c = 'E' then
      let sr := splitSign rest
      let dr := takeDigits sr.2
      if dr.1.isEmpty ∨ ¬ dr.2.isEmpty then none
      else some (if sr.1 then -(digitsToNat dr.1 : Int) else (digitsToNat dr.1 : Int))
    else none

/-- Model of the Python float builtin on finite decimal literals: optional
surrounding whitespace, optional sign, digits with an optional point and
exponent. Returns none where float(s) raises ValueError. -/
def pyFloat (s : String) : Option PyFloat :=
  let cs := (pyStrip s).data
  let sc := splitSign cs
  let ir := takeDigits sc.2
  match ir.2 with
  | '.' :: rest2 =>
    let fr := takeDigits rest2
    if ir.1.isEmpty ∧ fr.1.isEmpty then none
    else (parseDecExp fr.2).map (fun e => mkPyFloat sc.1 (ir.1 ++ fr.1) (e - (fr.1.length : Int)))
  | rest =>
    if ir.1.isEmpty then none
    else (parseDecExp rest).map (fun e => mkPyFloat sc.1 ir.1 e)

/-- Integer division of an Int by a Nat truncating toward zero, as the
Python int builtin does on a float. -/
def intTruncDiv (n : Int) (d : Nat) : Int :=
  if 0 ≤ n then Int.ofNat (n.toNat / d) else -(Int.ofNat ((-n).toNat / d))

/-- Truncation of an exact decimal value to an integer, toward zero. -/
def PyFloat.trunc (x : PyFloat) : Int :=
  match x.exp with
  | Int.ofNat k => x.man * ((10 ^ k : Nat) : Int)
  | Int.negSucc k => intTruncDiv x.man (10 ^ (k + 1))

/-- Model of int(float(s)): none where either conversion raises. -/
def int_float (s : String) : Option Int := (pyFloat s).map PyFloat.trunc

/-- Quantity parsing of the order loop (populate_db2.py lines 300 to 308):
int via float, retried with commas stripped, defaulting to zero. -/
def parse_qty (s : String) : Int :=
  match int_float s with
  | some n => n
  | none =>
    match int_float (removeCommas s) with
    | some n => n
    | none => 0

/-- Price parsing inside parse_products (populate_db2.py lines 132 to 138):
empty string gives zero without conversion; otherwise float, retried with
commas stripped, defaulting to zero. -/
def parse_price (s : String) : PyFloat :=
  if s = "" then ⟨0, 0⟩
  else
    match pyFloat s with
    | some q => q
    | none =>
      match pyFloat (removeCommas s) with
      | some q => q
      | none => ⟨0, 0⟩

/-! ## Python date model -/

structure PyDate where
  year : Nat
  month : Nat
  day : Nat
deriving DecidableEq, Repr

/-- Proleptic Gregorian leap year rule used by datetime.date. -/
def isLeapYear (y : Nat) : Bool := y % 4 = 0 && (y % 100 != 0 || y % 400 = 0)

/-- Number of days of a month in the proleptic Gregorian calendar. -/
def daysInMonth (y m : Nat) : Nat :=
  if m = 2 then (if isLeapYear y then 29 else 28)
  else if m = 4 ∨ m = 6 ∨ m = 9 ∨ m = 11 then 30
  else 31

/-- Construct a date when the components are in the datetime.date range. -/
def mkValidDate (y m d : Nat) : Option PyDate :=
  if 1 ≤ y ∧ y ≤ 9999 ∧ 1 ≤ m ∧ m ≤ 12 ∧ 1 ≤ d ∧ d ≤ daysInMonth y m then some ⟨y, m, d⟩
  else none

/-- Model of datetime.strptime(s, "%Y%m%d").date(): eight digits making a
valid date. -/
def strptime_Ymd8 (s : String) : Option PyDate :=
  let cs := s.data
  if cs.length = 8 ∧ cs.all pyIsDigit then
    mkValidDate (digitsToNat (cs.take 4)) (digitsToNat ((cs.drop 4).take 2)) (digitsToNat (cs.drop 6))
  else none

/-- Model of datetime.fromisoformat(s).date() restricted to the date-only
extended form YYYY-MM-DD, the shape the loader feeds it. -/
def pyFromIso (s : String) : Option PyDate :=
  match s.data with
  | [y1, y2, y3, y4, '-', m1, m2, '-', d1, d2] =>
    if [y1, y2, y3, y4, m1, m2, d1, d2].all pyIsDigit then
      mkValidDate (digitsToNat [y1, y2, y3, y4]) (digitsToNat [m1, m2]) (digitsToNat [d1, d2])
    else none
  | _ => none

/-- Model of datetime.strptime(s, "%Y-%m-%d").date(): three dash-separated
digit groups of width at most 4, 2 and 2 making a valid date. -/
def strptime_dashes (s : String) : Option PyDate :=
  match splitCharP (fun c => c = '-') s.data with
  | [ys, ms, ds] =>
    if ys ≠ [] ∧ ms ≠ [] ∧ ds ≠ [] ∧ (ys ++ ms ++ ds).all pyIsDigit ∧
        ys.length ≤ 4 ∧ ms.length ≤ 2 ∧ ds.length ≤ 2 then
      mkValidDate (digitsToNat ys) (digitsToNat ms) (digitsToNat ds)
    else none
  | _ => none

/-- Date normalization of the order loop (populate_db2.py lines 310 to 328):
a stripped value of exactly eight digits goes only through the strict
YYYYMMDD parse; anything else tries ISO format and then %Y-%m-%d. -/
def normalize_date (raw : String) : Option PyDate :=
  let d := pyStrip raw
  if d.data.length = 8 ∧ d.data.all pyIsDigit then strptime_Ymd8 d
  else
    match pyFromIso d with
    | some x => some x
    | none => strptime_dashes d

/-! ## String ordering and the Python stable sort

Python sorted is a stable sort; List.insertionSort with the relation below
has the same input/output behavior: an element is placed before the first
element it compares less-or-equal to, so elements with equal keys keep
their input order. Strings compare lexicographically by code point. -/

/-- Lexicographic comparison of character lists by code point. -/
def charListLe : List Char → List Char → Bool
  | [], _ => true
  | _ :: _, [] => false
  | a :: as, b :: bs =>
    if a.toNat < b.toNat then true
    else if b.toNat < a.toNat then false
    else charListLe as bs

/-- Python string less-or-equal. -/
def strLe (s t : String) : Bool := charListLe s.data t.data

/-- Propositional form of strLe. -/
def StrLeP (s t : String) : Prop := strLe s t = true

instance : DecidableRel StrLeP := fun a b => instDecidableEqBool (strLe a b) true

/-! ## The five static parsers

Each parser opens the file, skips the header with next(f), which raises
StopIteration when the file has no lines (modelled as Except.error), then
accumulates into a Python set and returns a sorted list. The set is
modelled as the deduplicated list of collected items viewed through an
enumeration function e standing for the iteration order of the hash table;
a run of the real program corresponds to some e that permutes its input. -/

/-- Per-line extraction of parse_regions (populate_db2.py lines 74 to 77). -/
def region_of_line (line : String) : Option String :=
  let parts := pySplitOn '\t' line
  if parts.length > 4 ∧ pyStrip (parts.getD 4 "") ≠ "" then some (pyStrip (parts.getD 4 ""))
  else none

/-- Model of parse_regions (populate_db2.py lines 69 to 78). -/
def parse_regions (e : List String → List String) (lines : List String) :
    Except Unit (List String) :=
  match lines with
  | [] => Except.error ()
  | _ :: body => Except.ok (List.insertionSort StrLeP (e (body.filterMap region_of_line).dedup))

/-- Per-line extraction of parse_countries (populate_db2.py lines 85 to 91). -/
def country_of_line (line : String) : Option (String × String) :=
  let parts := pySplitOn '\t' line
  if parts.length > 4 then
    let country := pyStrip (parts.getD 3 "")
    let region := pyStrip (parts.getD 4 "")
    if country ≠ "" ∧ region ≠ "" then some (country, region) else none
  else none

/-- Model of parse_countries (populate_db2.py lines 81 to 92), sorted by the
country component only. -/
def parse_countries (e : List (String × String) → List (String × String))
    (lines : List String) : Except Unit (List (String × String)) :=
  match lines with
  | [] => Except.error ()
  | _ :: body =>
    Except.ok (List.insertionSort (fun a b => StrLeP a.1 b.1)
      (e (body.filterMap country_of_line).dedup))

/-- Per-line extraction of parse_productcategories (populate_db2.py lines
99 to 109): category names split on semicolons and zipped with
descriptions, missing descriptions defaulting to the empty string. -/
def pc_items_of_line (line : String) : List (String × String) :=
  let parts := pySplitOn '\t' line
  if parts.length > 7 then
    let cat_list := ((pySplitOn ';' (parts.getD 6 "")).map pyStrip).filter (fun c => c ≠ "")
    let desc_list :=
      if parts.getD 7 "" ≠ "" then (pySplitOn ';' (parts.getD 7 "")).map pyStrip else []
    cat_list.enum.map (fun ic => (ic.2, desc_list.getD ic.1 ""))
  else []

/-- Model of parse_productcategories (populate_db2.py lines 95 to 110),
sorted by the category name only. -/
def parse_productcategories (e : List (String × String) → List (String × String))
    (lines : List String) : Except Unit (List (String × String)) :=
  match lines with
  | [] => Except.error ()
  | _ :: body =>
    Except.ok (List.insertionSort (fun a b => StrLeP a.1 b.1)
      (e (body.flatMap pc_items_of_line).dedup))

/-- Per-line extraction of parse_products (populate_db2.py lines 117 to
140): names filtered nonempty, positionally zipped with categories and
prices, records with an empty category dropped. -/
def prod_items_of_line (line : String) : List (String × String × PyFloat) :=
  let parts := pySplitOn '\t' line
  if parts.length > 8 then
    let names := ((pySplitOn ';' (parts.getD 5 "")).map pyStrip).filter (fun n => n ≠ "")
    let cats := if parts.getD 6 "" ≠ "" then (pySplitOn ';' (parts.getD 6 "")).map pyStrip else []
    let prices := if parts.getD 8 "" ≠ "" then (pySplitOn ';' (parts.getD 8 "")).map pyStrip else []
    names.enum.filterMap (fun im =>
      if cats.getD im.1 "" ≠ "" then
        some (im.2, cats.getD im.1 "", parse_price (prices.getD im.1 ""))
      else none)
  else []

/-- Model of parse_products (populate_db2.py lines 113 to 141), sorted by
the product name only. -/
def parse_products (e : List (String × String × PyFloat) → List (String × String × PyFloat))
    (lines : List String) : Except Unit (List (String × String × PyFloat)) :=
  match lines with
  | [] => Except.error ()
  | _ :: body =>
    Except.ok (List.insertionSort (fun a b => StrLeP a.1 b.1)
      (e (body.flatMap prod_items_of_line).dedup))

/-- Per-line extraction of parse_customers (populate_db2.py lines 148 to
162): dropped on a short line, an unresolved or empty country, or an empty
name; otherwise the name splits into first word and remaining words. -/
def customer_of_line (valid_countries : List String) (line : String) :
    Option (String × String × String × String × String) :=
  let parts := pySplitOn '\t' line
  if parts.length > 4 then
    let name := pyStrip (parts.getD 0 "")
    let address := pyStrip (parts.getD 1 "")
    let city := pyStrip (parts.getD 2 "")
    let country := pyStrip (parts.getD 3 "")
    if country = "" ∨ country ∉ valid_countries then none
    else if name = "" then none
    else
      let np := pyWords name
      some (np.headD "", if np.length > 1 then pyJoinSp np.tail else "", address, city, country)
  else none

/-- Model of parse_customers (populate_db2.py lines 144 to 163), sorted by
the concatenation of first and last name. -/
def parse_customers
    (e : List (String × String × String × String × String) →
      List (String × String × String × String × String))
    (valid_countries : List String) (lines : List String) :
    Except Unit (List (String × String × String × String × String)) :=
  match lines with
  | [] => Except.error ()
  | _ :: body =>
    Except.ok (List.insertionSort (fun a b => StrLeP (a.1 ++ " " ++ a.2.1) (b.1 ++ " " ++ b.2.1))
      (e (body.filterMap (customer_of_line valid_countries)).dedup))

/-! ## Reference resolver and main-stage row construction

The surrogate-key mappings read back from the database are association
lists from natural key to id; Python dict lookup and the dict builder with
insert-or-overwrite update are modelled below. -/

/-- Dict lookup: value of the single binding for a key, none when absent. -/
def alookup (k : String) : List (String × Nat) → Option Nat
  | [] => none
  | p :: rest => if p.1 = k then some p.2 else alookup k rest

/-- Python dict update d[k] = v: overwrite in place or append. -/
def dinsert (m : List (String × Nat)) (k : String) (v : Nat) : List (String × Nat) :=
  if m.any (fun p => decide (p.1 = k)) then m.map (fun p => if p.1 = k then (k, v) else p)
  else m ++ [(k, v)]

/-- Python dict built from a list of key/value pairs, later pairs
overwriting earlier ones, as a dict comprehension does. -/
def dict_of_pairs (rows : List (String × Nat)) : List (String × Nat) :=
  rows.foldl (fun m r => dinsert m r.1 r.2) []

/-- Country rows submitted for insertion (populate_db2.py line 213): pairs
whose region resolves in the region mapping, with the surrogate id. -/
def country_rows (region_map : List (String × Nat)) (pairs : List (String × String)) :
    List (String × Nat) :=
  pairs.filterMap (fun p => (alookup p.2 region_map).map (fun rid => (p.1, rid)))

/-- Product rows submitted for insertion (populate_db2.py line 232):
products whose category resolves in the category mapping. -/
def product_rows (cat_map : List (String × Nat)) (prods : List (String × String × PyFloat)) :
    List (String × PyFloat × Nat) :=
  prods.filterMap (fun t => (alookup t.2.1 cat_map).map (fun cid => (t.1, t.2.2, cid)))

/-- Customer rows submitted for insertion (populate_db2.py line 242). The
source indexes the country mapping directly, relying on the parser filter;
the lookup renders that indexing. -/
def customer_rows (country_map : List (String × Nat))
    (custs : List (String × String × String × String × String)) :
    List (String × String × String × String × Nat) :=
  custs.filterMap (fun t =>
    (alookup t.2.2.2.2 country_map).map (fun cid => (t.1, t.2.1, t.2.2.1, t.2.2.2.1, cid)))

/-- Key of the customer mapping (populate_db2.py line 247): first and last
name joined with a space, stripped. -/
def cust_key (f l : String) : String := pyStrip (f ++ " " ++ l)

/-- Customer mapping built from the read-back rows (firstname, lastname,
customerid) by a dict comprehension keyed on the full name only. -/
def mk_cust_map (rows : List (String × String × Nat)) : List (String × Nat) :=
  dict_of_pairs (rows.map (fun r => (cust_key r.1 r.2.1, r.2.2)))

/-! ## Order-line streaming -/

/-- Fields yielded per source line by parse_orders_stream. -/
structure OrderFields where
  name : String
  address : String
  city : String
  country : String
  pnames : String
  prices : String
  pcats : String
  qtys : String
  dates : String
deriving DecidableEq, Repr

/-- Per-line extraction of parse_orders_stream (populate_db2.py lines 173
to 188): lines shorter than six fields are skipped; the name is
whitespace-normalized; later fields default to the empty string. -/
def order_fields_of_line (line : String) : Option OrderFields :=
  let parts := pySplitOn '\t' line
  if parts.length < 6 then none
  else some ⟨
    pyStrip (pyJoinSp (pyWords (parts.getD 0 ""))),
    pyStrip (parts.getD 1 ""),
    pyStrip (parts.getD 2 ""),
    pyStrip (parts.getD 3 ""),
    pyStrip (parts.getD 5 ""),
    if parts.length > 8 then pyStrip (parts.getD 8 "") else "",
    if parts.length > 6 then pyStrip (parts.getD 6 "") else "",
    if parts.length > 9 then pyStrip (parts.getD 9 "") else "",
    if parts.length > 10 then pyStrip (parts.getD 10 "") else ""⟩

/-- Model of parse_orders_stream (populate_db2.py lines 166 to 188). -/
def parse_orders_stream (lines : List String) : Except Unit (List OrderFields) :=
  match lines with
  | [] => Except.error ()
  | _ :: body => Except.ok (body.filterMap order_fields_of_line)

/-- Customer key recomputed from an order-line name (populate_db2.py lines
268 to 271). -/
def order_cust_key (name : String) : String :=
  let np := pyWords name
  pyStrip (np.headD "" ++ " " ++ (if np.length > 1 then pyJoinSp np.tail else ""))

/-- Customer resolution of the order loop (populate_db2.py lines 266 to
284): the customer mapping by full-name key, then a direct database lookup
by first name, last name and country id, modelled by the oracle db_lookup.
An id of zero is falsy in Python and disables the fallback query. -/
def resolve_customer (cust_map country_map : List (String × Nat))
    (db_lookup : String → String → Nat → Option Nat) (name country : String) : Option Nat :=
  if name = "" then none
  else
    let np := pyWords name
    let first := np.headD ""
    let last := if np.length > 1 then pyJoinSp np.tail else ""
    match alookup (order_cust_key name) cust_map with
    | some cid => some cid
    | none =>
      if country ≠ "" then
        match alookup country country_map with
        | some ccid => if ccid ≠ 0 then db_lookup first last ccid else none
        | none => none
      else none

/-- Semicolon splitting with stripping of the order loop (populate_db2.py
lines 287 to 291): an empty packed field gives the empty list. -/
def split_semi (raw : String) : List String :=
  if raw = "" then [] else (pySplitOn ';' raw).map pyStrip

/-- Quantity at a position (populate_db2.py lines 299 to 308): parsed when
the quantity list is long enough, zero otherwise. -/
def qty_at (qtys : List String) (i : Nat) : Int :=
  if i < qtys.length then parse_qty (qtys.getD i "") else 0

/-- Date at a position (populate_db2.py lines 311 to 328): normalized when
the date list is long enough, none otherwise. -/
def date_at (dates : List String) (i : Nat) : Option PyDate :=
  if i < dates.length then normalize_date (dates.getD i "") else none

/-- One sub-record of the inner loop (populate_db2.py lines 294 to 339):
skipped on an empty product name, a missing or unparseable date, or an
unresolved product; otherwise an order-line tuple with the parsed
quantity. -/
def order_sub_record (product_map : List (String × Nat)) (cid : Nat)
    (pnames qtys dates : List String) (i : Nat) : Option (Nat × Nat × PyDate × Int) :=
  let pname := pnames.getD i ""
  if pname = "" then none
  else
    match date_at dates i with
    | none => none
    | some dt =>
      match alookup pname product_map with
      | none => none
      | some pid => some (cid, pid, dt, qty_at qtys i)

/-- Order-line tuples accepted from one source line (populate_db2.py lines
263 to 339): nothing when the customer does not resolve, else one optional
tuple per position up to the maximum packed-list length. -/
def process_order_line (cust_map country_map product_map : List (String × Nat))
    (db_lookup : String → String → Nat → Option Nat) (t : OrderFields) :
    List (Nat × Nat × PyDate × Int) :=
  match resolve_customer cust_map country_map db_lookup t.name t.country with
  | none => []
  | some cid =>
    let pnames := split_semi t.pnames
    let qtys := split_semi t.qtys
    let dates := split_semi t.dates
    let prices := split_semi t.prices
    let pcats := split_semi t.pcats
    let maxLen :=
      max (max (max (max pnames.length qtys.length) dates.length) prices.length) pcats.length
    (List.range maxLen).filterMap (order_sub_record product_map cid pnames qtys dates)

/-! ## Batched buffering and the two flush paths -/

/-- Buffer step for one accepted tuple (populate_db2.py lines 339 to 365):
append, and when the buffer length reaches the batch size hand the whole
buffer to the flush and clear it; the source clears the buffer on both the
success and the fallback path of the flush. The state is the pending
buffer together with the batches handed to the flush so far. -/
def push_row (bs : Nat) (st : List (Nat × Nat × PyDate × Int) × List (List (Nat × Nat × PyDate × Int)))
    (r : Nat × Nat × PyDate × Int) :
    List (Nat × Nat × PyDate × Int) × List (List (Nat × Nat × PyDate × Int)) :=
  let buf := st.1 ++ [r]
  if bs ≤ buf.length then ([], st.2 ++ [buf]) else (buf, st.2)

/-- Buffer state after streaming a sequence of accepted tuples. -/
def run_orders (bs : Nat) (rows : List (Nat × Nat × PyDate × Int)) :
    List (Nat × Nat × PyDate × Int) × List (List (Nat × Nat × PyDate × Int)) :=
  rows.foldl (push_row bs) ([], [])

/-- Rows committed by the in-loop flush (populate_db2.py lines 342 to 365):
all of the batch when the bulk insert succeeds; otherwise the transaction
is rolled back and each row is retried in its own transaction, so exactly
the individually succeeding rows are committed. The oracles bulk_ok and
row_ok stand for the database accepting the bulk statement or a row. -/
def flush_batch (bulk_ok : List (Nat × Nat × PyDate × Int) → Bool)
    (row_ok : Nat × Nat × PyDate × Int → Bool)
    (batch : List (Nat × Nat × PyDate × Int)) : List (Nat × Nat × PyDate × Int) :=
  if bulk_ok batch then batch else batch.filter row_ok

/-- Rows committed by the final flush (populate_db2.py lines 367 to 380):
all of the buffer when the bulk insert succeeds; otherwise the transaction
is rolled back, the error is printed, and nothing further is attempted. -/
def final_flush (bulk_ok : List (Nat × Nat × PyDate × Int) → Bool)
    (batch : List (Nat × Nat × PyDate × Int)) : List (Nat × Nat × PyDate × Int) :=
  if batch.isEmpty then []
  else if bulk_ok batch then batch else []

/-! ## Order lemmas for the stable sort -/

theorem char_toNat_inj {a b : Char} (h : a.toNat = b.toNat) : a = b := by
  cases a; cases b
  simp only [Char.toNat] at h
  congr 1
  cases ‹UInt32›
  cases ‹UInt32›
  simp only [UInt32.toNat] at h
  congr 1
  exact BitVec.eq_of_toNat_eq h

theorem charListLe_total : ∀ as bs : List Char, charListLe as bs = true ∨ charListLe bs as = true
  | [], _ => Or.inl rfl
  | _ :: _, [] => Or.inr rfl
  | a :: as, b :: bs => by
    by_cases h1 : a.toNat < b.toNat
    · left; simp [charListLe, h1]
    · by_cases h2 : b.toNat < a.toNat
      · right; simp [charListLe, h2]
      · have ih := charListLe_total as bs
        simp only [charListLe, if_neg h1, if_neg h2]
        exact ih

theorem charListLe_trans : ∀ (as bs cs : List Char), charListLe as bs = true →
    charListLe bs cs = true → charListLe as cs = true
  | [], _, _, _, _ => rfl
  | _ :: _, [], _, h, _ => by simp [charListLe] at h
  | _ :: _, _ :: _, [], _, h => by simp [charListLe] at h
  | a :: as, b :: bs, c :: cs, h1, h2 => by
    simp only [charListLe] at h1 h2 ⊢
    rcases Nat.lt_trichotomy a.toNat b.toNat with hab | hab | hab
    · rcases Nat.lt_trichotomy b.toNat c.toNat with hbc | hbc | hbc
      · rw [if_pos (Nat.lt_trans hab hbc)]
      · rw [if_pos (hbc ▸ hab)]
      · rw [if_neg (by omega), if_pos hbc] at h2; simp at h2
    · rcases Nat.lt_trichotomy b.toNat c.toNat with hbc | hbc | hbc
      · rw [if_pos (hab ▸ hbc)]
      · rw [if_neg (by omega), if_neg (by omega)] at h1
        rw [if_neg (by omega), if_neg (by omega)] at h2
        rw [if_neg (by omega), if_neg (by omega)]
        exact charListLe_trans as bs cs h1 h2
      · rw [if_neg (by omega), if_pos hbc] at h2; simp at h2
    · rw [if_neg (by omega), if_pos hab] at h1; simp at h1

theorem charListLe_antisymm : ∀ (as bs : List Char), charListLe as bs = true →
    charListLe bs as = true → as = bs
  | [], [], _, _ => rfl
  | [], _ :: _, _, h => by simp [charListLe] at h
  | _ :: _, [], h, _ => by simp [charListLe] at h
  | a :: as, b :: bs, h1, h2 => by
    simp only [charListLe] at h1 h2
    rcases Nat.lt_trichotomy a.toNat b.toNat with hab | hab | hab
    · rw [if_neg (by omega), if_pos hab] at h2; simp at h2
    · have hc : a = b := char_toNat_inj hab
      subst hc
      rw [if_neg (by omega), if_neg (by omega)] at h1 h2
      rw [charListLe_antisymm as bs h1 h2]
    · rw [if_neg (by omega), if_pos hab] at h1; simp at h1

instance : IsTotal String StrLeP := ⟨fun a b => charListLe_total a.data b.data⟩

instance : IsTrans String StrLeP :=
  ⟨fun a b c h1 h2 => charListLe_trans a.data b.data c.data h1 h2⟩

instance : IsAntisymm String StrLeP := by
  refine ⟨fun a b h1 h2 => ?_⟩
  cases a; cases b
  exact congrArg String.mk (charListLe_antisymm _ _ h1 h2)

/-! ## Dictionary lemmas -/

theorem alookup_mem {k : String} : ∀ {m : List (String × Nat)} {v : Nat},
    alookup k m = some v → (k, v) ∈ m
  | [], _, h => by simp [alookup] at h
  | p :: rest, v, h => by
    simp only [alookup] at h
    by_cases hp : p.1 = k
    · rw [if_pos hp] at h
      cases h
      have hkp : (k, p.2) = p := by cases p; simp_all
      rw [hkp]
      exact List.mem_cons_self _ _
    · rw [if_neg hp] at h
      exact List.mem_cons_of_mem _ (alookup_mem h)

theorem alookup_mem_values {k : String} {m : List (String × Nat)} {v : Nat}
    (h : alookup k m = some v) : v ∈ m.map Prod.snd :=
  List.mem_map_of_mem Prod.snd (alookup_mem h)

theorem alookup_overwrite_self (k : String) (v : Nat) :
    ∀ m : List (String × Nat), m.any (fun p => decide (p.1 = k)) = true →
      alookup k (m.map (fun p => if p.1 = k then (k, v) else p)) = some v
  | [], h => by simp at h
  | p :: rest, h => by
    by_cases hp : p.1 = k
    · simp [alookup, hp]
    · have hrest : rest.any (fun p => decide (p.1 = k)) = true := by simpa [hp] using h
      simpa [alookup, hp] using alookup_overwrite_self k v rest hrest

theorem alookup_overwrite_ne {k k2 : String} (hne : ¬ k2 = k) (v : Nat) :
    ∀ m : List (String × Nat),
      alookup k (m.map (fun p => if p.1 = k2 then (k2, v) else p)) = alookup k m
  | [] => by simp [alookup]
  | p :: rest => by
    by_cases hp : p.1 = k2
    · have hpk : ¬ p.1 = k := by rw [hp]; exact hne
      simp only [List.map_cons, if_pos hp, alookup, if_neg hne, if_neg hpk]
      exact alookup_overwrite_ne hne v rest
    · simp only [List.map_cons, if_neg hp, alookup]
      by_cases hpk : p.1 = k
      · rw [if_pos hpk, if_pos hpk]
      · rw [if_neg hpk, if_neg hpk]
        exact alookup_overwrite_ne hne v rest

theorem alookup_append_last (k : String) (v : Nat) :
    ∀ m : List (String × Nat), (∀ p ∈ m, ¬ p.1 = k) → alookup k (m ++ [(k, v)]) = some v
  | [], _ => by simp [alookup]
  | p :: rest, hall => by
    have hp := hall p (by simp)
    simp only [List.cons_append, alookup, if_neg hp]
    exact alookup_append_last k v rest (fun q hq => hall q (by simp [hq]))

theorem alookup_append_ne {k k2 : String} (hne : ¬ k2 = k) (v : Nat) :
    ∀ m : List (String × Nat), alookup k (m ++ [(k2, v)]) = alookup k m
  | [] => by simp [alookup, hne]
  | p :: rest => by
    simp only [List.cons_append, alookup]
    by_cases hpk : p.1 = k
    · rw [if_pos hpk, if_pos hpk]
    · rw [if_neg hpk, if_neg hpk]
      exact alookup_append_ne hne v rest

theorem alookup_dinsert_eq (m : List (String × Nat)) (k : String) (v : Nat) :
    alookup k (dinsert m k v) = some v := by
  unfold dinsert
  by_cases hany : m.any (fun p => decide (p.1 = k)) = true
  · rw [if_pos hany]
    exact alookup_overwrite_self k v m hany
  · rw [if_neg hany]
    have hall : ∀ p ∈ m, ¬ p.1 = k := by
      intro p hp hk
      exact hany (List.any_eq_true.mpr ⟨p, hp, by simp [hk]⟩)
    exact alookup_append_last k v m hall

theorem alookup_dinsert_ne {k k2 : String} (hne : ¬ k2 = k) (m : List (String × Nat)) (v : Nat) :
    alookup k (dinsert m k2 v) = alookup k m := by
  unfold dinsert
  by_cases hany : m.any (fun p => decide (p.1 = k2)) = true
  · rw [if_pos hany]
    exact alookup_overwrite_ne hne v m
  · rw [if_neg hany]
    exact alookup_append_ne hne v m

theorem alookup_foldl_dinsert (k : String) :
    ∀ (rows m0 : List (String × Nat)),
      alookup k (rows.foldl (fun m r => dinsert m r.1 r.2) m0) =
        ((rows.reverse.find? (fun r => decide (r.1 = k))).map Prod.snd).or (alookup k m0)
  | [], m0 => by simp
  | r :: rest, m0 => by
    simp only [List.foldl_cons, List.reverse_cons, List.find?_append]
    rw [alookup_foldl_dinsert k rest (dinsert m0 r.1 r.2)]
    cases hf : rest.reverse.find? (fun q => decide (q.1 = k)) with
    | some q => simp
    | none =>
      simp only [Option.map_none, Option.none_or]
      by_cases hr : r.1 = k
      · subst hr
        simp [List.find?_cons, alookup_dinsert_eq]
      · simp [List.find?_cons, hr, alookup_dinsert_ne hr]

theorem dinsert_keys_nodup {m : List (String × Nat)} {k : String} {v : Nat}
    (h : (m.map Prod.fst).Nodup) : ((dinsert m k v).map Prod.fst).Nodup := by
  unfold dinsert
  by_cases hany : m.any (fun p => decide (p.1 = k)) = true
  · rw [if_pos hany]
    have hkeys : (m.map (fun p => if p.1 = k then (k, v) else p)).map Prod.fst = m.map Prod.fst := by
      rw [List.map_map]
      apply List.map_congr_left
      intro p _
      by_cases hpk : p.1 = k <;> simp [hpk]
    rw [hkeys]
    exact h
  · rw [if_neg hany, List.map_append]
    refine List.Nodup.append h (List.nodup_singleton k) ?_
    intro a ha hb
    have hak : a = k := by simpa using hb
    subst hak
    obtain ⟨p, hp, hpk⟩ := List.mem_map.mp ha
    exact hany (List.any_eq_true.mpr ⟨p, hp, by simp [hpk]⟩)

theorem dict_keys_nodup : ∀ (rows m0 : List (String × Nat)), (m0.map Prod.fst).Nodup →
    ((rows.foldl (fun m r => dinsert m r.1 r.2) m0).map Prod.fst).Nodup
  | [], _, h => h
  | _ :: rest, _, h => dict_keys_nodup rest _ (dinsert_keys_nodup h)

/-! ## Buffer fold invariant -/

theorem run_orders_fold_spec (bs : Nat) (hbs : 1 ≤ bs) :
    ∀ (rows : List (Nat × Nat × PyDate × Int))
      (st : List (Nat × Nat × PyDate × Int) × List (List (Nat × Nat × PyDate × Int))),
      st.1.length < bs → (∀ b ∈ st.2, b.length = bs) →
      (rows.foldl (push_row bs) st).1.length < bs ∧
      (∀ b ∈ (rows.foldl (push_row bs) st).2, b.length = bs) ∧
      (rows.foldl (push_row bs) st).2.flatten ++ (rows.foldl (push_row bs) st).1 =
        st.2.flatten ++ st.1 ++ rows
  | [], _, h1, h2 => ⟨h1, h2, by simp⟩
  | r :: rest, st, h1, h2 => by
    simp only [List.foldl_cons]
    by_cases hf : bs ≤ (st.1 ++ [r]).length
    · have hst : push_row bs st r = ([], st.2 ++ [st.1 ++ [r]]) := by
        simp only [push_row]
        rw [if_pos hf]
      have hlen : (st.1 ++ [r]).length = bs := by
        simp only [List.length_append, List.length_singleton] at hf ⊢
        omega
      have hbat : ∀ b ∈ st.2 ++ [st.1 ++ [r]], b.length = bs := by
        intro b hb
        rcases List.mem_append.mp hb with hb | hb
        · exact h2 b hb
        · have : b = st.1 ++ [r] := by simpa using hb
          rw [this]
          exact hlen
      rw [hst]
      obtain ⟨ih1, ih2, ih3⟩ :=
        run_orders_fold_spec bs hbs rest ([], st.2 ++ [st.1 ++ [r]]) (by simpa using hbs) hbat
      refine ⟨ih1, ih2, ?_⟩
      rw [ih3]
      simp [List.flatten_append, List.append_assoc]
    · have hst : push_row bs st r = (st.1 ++ [r], st.2) := by
        simp only [push_row]
        rw [if_neg hf]
      rw [hst]
      obtain ⟨ih1, ih2, ih3⟩ :=
        run_orders_fold_spec bs hbs rest (st.1 ++ [r], st.2) (Nat.not_le.mp hf) h2
      refine ⟨ih1, ih2, ?_⟩
      rw [ih3]
      simp [List.append_assoc]

/-! ## Shape lemmas for the order loop -/

theorem resolve_customer_cases {cm com : List (String × Nat)}
    {db : String → String → Nat → Option Nat} {name country : String} {cid : Nat}
    (h : resolve_customer cm com db name country = some cid) :
    alookup (order_cust_key name) cm = some cid ∨
    ∃ ccid, alookup country com = some ccid ∧
      db ((pyWords name).headD "")
        (if (pyWords name).length > 1 then pyJoinSp (pyWords name).tail else "") ccid = some cid := by
  simp only [resolve_customer] at h
  by_cases hn : name = ""
  · rw [if_pos hn] at h
    cases h
  · rw [if_neg hn] at h
    cases hk : alookup (order_cust_key name) cm with
    | some c =>
      rw [hk] at h
      exact Or.inl h
    | none =>
      rw [hk] at h
      by_cases hc : country ≠ ""
      · rw [if_pos hc] at h
        cases hcc : alookup country com with
        | none => rw [hcc] at h; cases h
        | some ccid =>
          simp only [hcc] at h
          by_cases hz : ccid ≠ 0
          · rw [if_pos hz] at h
            exact Or.inr ⟨ccid, rfl, h⟩
          · rw [if_neg hz] at h
            cases h
      · rw [if_neg hc] at h
        cases h

theorem order_sub_record_shape {pm : List (String × Nat)} {cid : Nat}
    {pnames qtys dates : List String} {i : Nat} {r : Nat × Nat × PyDate × Int}
    (h : order_sub_record pm cid pnames qtys dates i = some r) :
    r.1 = cid ∧ alookup (pnames.getD i "") pm = some r.2.1 ∧
      date_at dates i = some r.2.2.1 ∧ r.2.2.2 = qty_at qtys i := by
  simp only [order_sub_record] at h
  by_cases hp : pnames.getD i "" = ""
  · rw [if_pos hp] at h
    cases h
  · rw [if_neg hp] at h
    cases hd : date_at dates i with
    | none => rw [hd] at h; cases h
    | some dt =>
      rw [hd] at h
      cases hl : alookup (pnames.getD i "") pm with
      | none => rw [hl] at h; cases h
      | some pid =>
        rw [hl] at h
        cases h
        exact ⟨rfl, rfl, rfl, rfl⟩

theorem process_order_line_mem {cm com pm : List (String × Nat)}
    {db : String → String → Nat → Option Nat} {t : OrderFields}
    {row : Nat × Nat × PyDate × Int} (h : row ∈ process_order_line cm com pm db t) :
    ∃ cid, resolve_customer cm com db t.name t.country = some cid ∧
      ∃ i, order_sub_record pm cid (split_semi t.pnames) (split_semi t.qtys)
        (split_semi t.dates) i = some row := by
  simp only [process_order_line] at h
  cases hres : resolve_customer cm com db t.name t.country with
  | none =>
    rw [hres] at h
    simp at h
  | some cid =>
    rw [hres] at h
    simp only [List.mem_filterMap, List.mem_range] at h
    obtain ⟨i, _, heq⟩ := h
    exact ⟨cid, rfl, i, heq⟩

/-! ## Claim theorems -/

/-- C6: for every product price sub-field, parsing first attempts a direct
float conversion of the raw string, then retries with commas stripped, and
otherwise yields zero; the chain is a total function, so no input string
raises, and an empty price string yields zero without any conversion. -/
theorem c6_price_fallback_chain :
    parse_price "" = ⟨0, 0⟩ ∧
    (∀ s q, pyFloat s = some q → parse_price s = q) ∧
    (∀ s q, pyFloat s = none → pyFloat (removeCommas s) = some q → parse_price s = q) ∧
    (∀ s, pyFloat s = none → pyFloat (removeCommas s) = none → parse_price s = ⟨0, 0⟩) := by
  refine ⟨rfl, ?_, ?_, ?_⟩
  · intro s q h
    by_cases hs : s = ""
    · rw [hs] at h
      rw [(by decide : pyFloat "" = none)] at h
      cases h
    · simp [parse_price, hs, h]
  · intro s q h1 h2
    by_cases hs : s = ""
    · rw [hs] at h2
      rw [(by decide : pyFloat (removeCommas "") = none)] at h2
      cases h2
    · simp [parse_price, hs, h1, h2]
  · intro s h1 h2
    by_cases hs : s = ""
    · simp [parse_price, hs]
    · simp [parse_price, hs, h1, h2]

/-- C6 witness: a price with a thousands separator fails the direct
conversion and succeeds after comma stripping. -/
theorem c6_price_fallback_chain_witness :
    pyFloat "1,234.5" = none ∧ pyFloat (removeCommas "1,234.5") = some ⟨12345, -1⟩ ∧
      parse_price "1,234.5" = ⟨12345, -1⟩ :=
  ⟨by decide, by decide,
    c6_price_fallback_chain.2.2.1 "1,234.5" ⟨12345, -1⟩ (by decide) (by decide)⟩

/-- C5: for every order sub-record with a nonempty product name, the
quantity is parsed as an integer via float conversion, retried with commas
stripped, defaulting to zero when both attempts fail or the quantity list
is too short; a quantity parse failure never causes the sub-record to be
skipped: whenever date and product resolve, the sub-record yields a tuple
whose quantity is the parsed value, whatever the quantity list holds, and
that tuple is accumulated by the line processor. -/
theorem c5_qty_never_blocks :
    (∀ s n, int_float s = some n → parse_qty s = n) ∧
    (∀ s n, int_float s = none → int_float (removeCommas s) = some n → parse_qty s = n) ∧
    (∀ s, int_float s = none → int_float (removeCommas s) = none → parse_qty s = 0) ∧
    (∀ qtys i, qtys.length ≤ i → qty_at qtys i = 0) ∧
    (∀ pm cid pnames qtys dates i dt pid,
      pnames.getD i "" ≠ "" → date_at dates i = some dt →
      alookup (pnames.getD i "") pm = some pid →
      order_sub_record pm cid pnames qtys dates i = some (cid, pid, dt, qty_at qtys i)) ∧
    (∀ cm com pm db t cid i r,
      resolve_customer cm com db t.name t.country = some cid →
      i < (split_semi t.pnames).length →
      order_sub_record pm cid (split_semi t.pnames) (split_semi t.qtys)
        (split_semi t.dates) i = some r →
      r ∈ process_order_line cm com pm db t) := by
  refine ⟨?_, ?_, ?_, ?_, ?_, ?_⟩
  · intro s n h
    simp [parse_qty, h]
  · intro s n h1 h2
    simp [parse_qty, h1, h2]
  · intro s h1 h2
    simp [parse_qty, h1, h2]
  · intro qtys i h
    simp [qty_at, Nat.not_lt.mpr h]
  · intro pm cid pnames qtys dates i dt pid h1 h2 h3
    simp only [order_sub_record, if_neg h1, h2, h3]
  · intro cm com pm db t cid i r hres hi heq
    simp only [process_order_line, hres]
    refine List.mem_filterMap.mpr ⟨i, List.mem_range.mpr ?_, heq⟩
    omega

/-- C5 witness: an unparseable quantity still yields a zero-quantity tuple
when the date and the product resolve. -/
theorem c5_qty_never_blocks_witness :
    order_sub_record [("W", 3)] 7 ["W"] ["abc"] ["2023-01-01"] 0 = some (7, 3, ⟨2023, 1, 1⟩, 0) ∧
      parse_qty "abc" = 0 :=
  ⟨(c5_qty_never_blocks.2.2.2.2.1 [("W", 3)] 7 ["W"] ["abc"] ["2023-01-01"] 0 ⟨2023, 1, 1⟩ 3
      (by decide) (by decide) (by decide)).trans (by decide), by decide⟩

/-- C1 counterexample: with a failing bulk insert and a row oracle that
accepts every row, the final flush commits nothing while the in-loop
two-tier flush commits the row, so the final flush does not use the same
two-tier strategy. -/
theorem c1_counterexample :
    final_flush (fun _ => false) [(1, 1, ⟨2023, 1, 1⟩, 1)] ≠
      flush_batch (fun _ => false) (fun _ => true) [(1, 1, ⟨2023, 1, 1⟩, 1)] := by decide

/-- C1 amended: the final flush submits the buffer as one bulk insert and,
when the bulk insert succeeds, commits exactly what the in-loop flush
would; but when the bulk insert raises, the transaction is rolled back and
the final buffer is dropped without the row-by-row retry that the in-loop
flush performs. -/
theorem c1_final_flush_single_tier :
    (∀ bulk_ok row_ok batch, bulk_ok batch = true →
      final_flush bulk_ok batch = batch ∧ flush_batch bulk_ok row_ok batch = batch) ∧
    (∀ bulk_ok row_ok batch, batch ≠ [] → bulk_ok batch = false →
      final_flush bulk_ok batch = [] ∧ flush_batch bulk_ok row_ok batch = batch.filter row_ok) := by
  constructor
  · intro bulk_ok row_ok batch h
    cases batch <;> simp [final_flush, flush_batch, h]
  · intro bulk_ok row_ok batch hne h
    cases batch with
    | nil => exact absurd rfl hne
    | cons b bs => simp [final_flush, flush_batch, h]

/-- C1 witness: a two-row buffer rejected in bulk, with one row accepted
individually, is lost whole by the final flush while the in-loop flush
keeps the acceptable row. -/
theorem c1_final_flush_single_tier_witness :
    final_flush (fun b => decide (b.length ≤ 1)) [(1, 1, ⟨2023, 1, 1⟩, 1), (2, 2, ⟨2023, 1, 2⟩, 2)]
      = [] ∧
    flush_batch (fun b => decide (b.length ≤ 1)) (fun r => decide (r.1 = 1))
      [(1, 1, ⟨2023, 1, 1⟩, 1), (2, 2, ⟨2023, 1, 2⟩, 2)] = [(1, 1, ⟨2023, 1, 1⟩, 1)] :=
  ⟨(c1_final_flush_single_tier.2 (fun b => decide (b.length ≤ 1)) (fun r => decide (r.1 = 1))
      [(1, 1, ⟨2023, 1, 1⟩, 1), (2, 2, ⟨2023, 1, 2⟩, 2)] (by decide) (by decide)).1,
    ((c1_final_flush_single_tier.2 (fun b => decide (b.length ≤ 1)) (fun r => decide (r.1 = 1))
      [(1, 1, ⟨2023, 1, 1⟩, 1), (2, 2, ⟨2023, 1, 2⟩, 2)] (by decide) (by decide)).2).trans
      (by decide)⟩

/-- C7: accepted order-line tuples accumulate in a buffer flushed exactly
when its length reaches the batch size, the buffer is emptied after every
flush, so after any prefix of the accepted stream the buffer holds fewer
than batch-size tuples, every flushed batch has exactly batch-size tuples,
and the flushed batches followed by the pending buffer are exactly the
accepted tuples in order, so no tuple is flushed twice or lost. -/
theorem c7_batch_buffer_invariant (bs : Nat) (hbs : 1 ≤ bs)
    (rows : List (Nat × Nat × PyDate × Int)) :
    (run_orders bs rows).1.length < bs ∧
    (∀ b ∈ (run_orders bs rows).2, b.length = bs) ∧
    (run_orders bs rows).2.flatten ++ (run_orders bs rows).1 = rows := by
  have h := run_orders_fold_spec bs hbs rows ([], []) (by simpa using hbs) (by simp)
  simpa [run_orders] using h

/-- C7 witness: three tuples at batch size two give one full batch and a
pending buffer that together restore the stream. -/
theorem c7_batch_buffer_invariant_witness :
    (run_orders 2 [(1, 1, ⟨2023, 1, 1⟩, 1), (1, 1, ⟨2023, 1, 2⟩, 1),
      (1, 1, ⟨2023, 1, 3⟩, 1)]).2.flatten ++
      (run_orders 2 [(1, 1, ⟨2023, 1, 1⟩, 1), (1, 1, ⟨2023, 1, 2⟩, 1),
        (1, 1, ⟨2023, 1, 3⟩, 1)]).1 =
      [(1, 1, ⟨2023, 1, 1⟩, 1), (1, 1, ⟨2023, 1, 2⟩, 1), (1, 1, ⟨2023, 1, 3⟩, 1)] :=
  (c7_batch_buffer_invariant 2 (by decide)
    [(1, 1, ⟨2023, 1, 1⟩, 1), (1, 1, ⟨2023, 1, 2⟩, 1), (1, 1, ⟨2023, 1, 3⟩, 1)]).2.2

/-- C3: every country row submitted for insertion carries a region id from
the region mapping, every product row a category id from the category
mapping, every customer row a country id from the country mapping; the
rows of unresolved records are dropped, never submitted (the submitted
country rows are exactly as many as the resolvable pairs); and every
accepted order-line tuple carries a customer id from the customer mapping
or from the database fallback query and a product id from the product
mapping. -/
theorem c3_referential_dropping :
    (∀ (rm : List (String × Nat)) (pairs : List (String × String)) x,
      x ∈ country_rows rm pairs → x.2 ∈ rm.map Prod.snd) ∧
    (∀ (cm : List (String × Nat)) (prods : List (String × String × PyFloat)) x,
      x ∈ product_rows cm prods → x.2.2 ∈ cm.map Prod.snd) ∧
    (∀ (com : List (String × Nat)) (custs : List (String × String × String × String × String)) x,
      x ∈ customer_rows com custs → x.2.2.2.2 ∈ com.map Prod.snd) ∧
    (∀ (rm : List (String × Nat)) (pairs : List (String × String)),
      (country_rows rm pairs).length =
        (pairs.filter (fun p => (alookup p.2 rm).isSome)).length) ∧
    (∀ (cm com pm : List (String × Nat)) (db : String → String → Nat → Option Nat)
      (custIds : List Nat) (t : OrderFields) (row : Nat × Nat × PyDate × Int),
      (∀ kv ∈ cm, kv.2 ∈ custIds) →
      (∀ f l c r2, db f l c = some r2 → r2 ∈ custIds) →
      row ∈ process_order_line cm com pm db t →
      row.1 ∈ custIds ∧ row.2.1 ∈ pm.map Prod.snd) := by
  refine ⟨?_, ?_, ?_, ?_, ?_⟩
  · intro rm pairs x hx
    simp only [country_rows, List.mem_filterMap] at hx
    obtain ⟨p, _, hp⟩ := hx
    obtain ⟨rid, hrid, hmap⟩ := Option.map_eq_some'.mp hp
    cases hmap
    exact alookup_mem_values hrid
  · intro cm prods x hx
    simp only [product_rows, List.mem_filterMap] at hx
    obtain ⟨p, _, hp⟩ := hx
    obtain ⟨cid, hcid, hmap⟩ := Option.map_eq_some'.mp hp
    cases hmap
    exact alookup_mem_values hcid
  · intro com custs x hx
    simp only [customer_rows, List.mem_filterMap] at hx
    obtain ⟨p, _, hp⟩ := hx
    obtain ⟨cid, hcid, hmap⟩ := Option.map_eq_some'.mp hp
    cases hmap
    exact alookup_mem_values hcid
  · intro rm pairs
    induction pairs with
    | nil => rfl
    | cons p ps ih =>
      cases h : alookup p.2 rm with
      | none =>
        simpa [country_rows, List.filterMap_cons, List.filter_cons, h] using ih
      | some rid =>
        simpa [country_rows, List.filterMap_cons, List.filter_cons, h] using ih
  · intro cm com pm db custIds t row h1 h2 hrow
    obtain ⟨cid, hres, i, hsub⟩ := process_order_line_mem hrow
    obtain ⟨hcid, hpid, -, -⟩ := order_sub_record_shape hsub
    constructor
    · rw [hcid]
      rcases resolve_customer_cases hres with hk | ⟨ccid, -, hdb⟩
      · exact h1 _ (alookup_mem hk)
      · exact h2 _ _ _ _ hdb
    · exact alookup_mem_values hpid

/-- C3 witness: the accepted tuple of the example line carries the mapped
customer id and product id. -/
theorem c3_referential_dropping_witness :
    (7, 3, (⟨2023, 1, 1⟩ : PyDate), (3 : Int)).1 ∈ [7] ∧
      (7, 3, (⟨2023, 1, 1⟩ : PyDate), (3 : Int)).2.1 ∈ ([("Widget", 3)].map Prod.snd) :=
  c3_referential_dropping.2.2.2.2 [("Jane Doe", 7)] [("USA", 2)] [("Widget", 3)]
    (fun _ _ _ => none) [7]
    ⟨"Jane Doe", "123 Elm", "Springfield", "USA", "Widget;Gadget", "10.0;20.0", "Toys;Tools",
      "3;5", "20230101;bad-date"⟩
    (7, 3, ⟨2023, 1, 1⟩, 3)
    (by decide) (fun f l c r2 hr => by cases hr) (by decide)

/-- C8: a source line yields no customer record exactly when the line is
short, its stripped name is empty, or its stripped country is empty or not
in the resolved country set; every retained line yields the tuple whose
first name is the first whitespace word of the name and whose last name is
the space-join of the remaining words; and membership in the parser output
is exactly per-line retention over the body of the file. -/
theorem c8_customer_filter :
    (∀ valid line, customer_of_line valid line = none ↔
      ((pySplitOn '\t' line).length ≤ 4 ∨
       pyStrip ((pySplitOn '\t' line).getD 0 "") = "" ∨
       pyStrip ((pySplitOn '\t' line).getD 3 "") = "" ∨
       pyStrip ((pySplitOn '\t' line).getD 3 "") ∉ valid)) ∧
    (∀ valid line t, customer_of_line valid line = some t →
      t.1 = (pyWords (pyStrip ((pySplitOn '\t' line).getD 0 ""))).headD "" ∧
      t.2.1 = (if (pyWords (pyStrip ((pySplitOn '\t' line).getD 0 ""))).length > 1
        then pyJoinSp (pyWords (pyStrip ((pySplitOn '\t' line).getD 0 ""))).tail else "") ∧
      t.2.2.1 = pyStrip ((pySplitOn '\t' line).getD 1 "") ∧
      t.2.2.2.1 = pyStrip ((pySplitOn '\t' line).getD 2 "") ∧
      t.2.2.2.2 = pyStrip ((pySplitOn '\t' line).getD 3 "")) ∧
    (∀ e valid lines out t, (∀ l, (e l).Perm l) →
      parse_customers e valid lines = Except.ok out →
      (t ∈ out ↔ ∃ line ∈ lines.tail, customer_of_line valid line = some t)) := by
  refine ⟨?_, ?_, ?_⟩
  · intro valid line
    simp only [customer_of_line]
    by_cases h4 : (pySplitOn '\t' line).length > 4
    · rw [if_pos h4]
      by_cases hcv : pyStrip ((pySplitOn '\t' line).getD 3 "") = "" ∨
          pyStrip ((pySplitOn '\t' line).getD 3 "") ∉ valid
      · rw [if_pos hcv]
        exact iff_of_true rfl (Or.inr (Or.inr hcv))
      · rw [if_neg hcv]
        by_cases hn : pyStrip ((pySplitOn '\t' line).getD 0 "") = ""
        · rw [if_pos hn]
          exact iff_of_true rfl (Or.inr (Or.inl hn))
        · rw [if_neg hn]
          have hcd := not_or.mp hcv
          refine iff_of_false (by simp) ?_
          push_neg
          exact ⟨h4, hn, hcd.1, not_not.mp hcd.2⟩
    · rw [if_neg h4]
      exact iff_of_true rfl (Or.inl (by omega))
  · intro valid line t h
    simp only [customer_of_line] at h
    by_cases h4 : (pySplitOn '\t' line).length > 4
    · rw [if_pos h4] at h
      by_cases hcv : pyStrip ((pySplitOn '\t' line).getD 3 "") = "" ∨
          pyStrip ((pySplitOn '\t' line).getD 3 "") ∉ valid
      · rw [if_pos hcv] at h
        cases h
      · rw [if_neg hcv] at h
        by_cases hn : pyStrip ((pySplitOn '\t' line).getD 0 "") = ""
        · rw [if_pos hn] at h
          cases h
        · rw [if_neg hn] at h
          cases h
          exact ⟨rfl, rfl, rfl, rfl, rfl⟩
    · rw [if_neg h4] at h
      cases h
  · intro e valid lines out t he hok
    cases lines with
    | nil => cases hok
    | cons hd body =>
      simp only [parse_customers] at hok
      cases hok
      simp only [List.tail_cons]
      rw [((List.perm_insertionSort _ _).trans (he _)).mem_iff, List.mem_dedup]
      exact List.mem_filterMap

/-- C8 witness: a well-formed line with a resolvable country yields the
split-name customer tuple. -/
theorem c8_customer_filter_witness :
    ("Jane", "Doe", "A", "B", "USA").1 =
      (pyWords (pyStrip ((pySplitOn '\t' "Jane Doe\tA\tB\tUSA\tx").getD 0 ""))).headD "" ∧
    ("Jane", "Doe", "A", "B", "USA").2.1 =
      (if (pyWords (pyStrip ((pySplitOn '\t' "Jane Doe\tA\tB\tUSA\tx").getD 0 ""))).length > 1
        then pyJoinSp (pyWords (pyStrip ((pySplitOn '\t' "Jane Doe\tA\tB\tUSA\tx").getD 0 ""))).tail
        else "") ∧
    ("Jane", "Doe", "A", "B", "USA").2.2.1 =
      pyStrip ((pySplitOn '\t' "Jane Doe\tA\tB\tUSA\tx").getD 1 "") ∧
    ("Jane", "Doe", "A", "B", "USA").2.2.2.1 =
      pyStrip ((pySplitOn '\t' "Jane Doe\tA\tB\tUSA\tx").getD 2 "") ∧
    ("Jane", "Doe", "A", "B", "USA").2.2.2.2 =
      pyStrip ((pySplitOn '\t' "Jane Doe\tA\tB\tUSA\tx").getD 3 "") :=
  c8_customer_filter.2.1 ["USA"] "Jane Doe\tA\tB\tUSA\tx" ("Jane", "Doe", "A", "B", "USA")
    (by decide)

/-- C9 counterexample: on an empty input file the header skip next(f)
raises StopIteration, which escapes the regions parser (modelled as the
error outcome), so a parser does not return normally on every input file. -/
theorem c9_counterexample : parse_regions (fun l => l) [] = Except.error () := rfl

/-- C9 amended: on every input file with at least its header line each of
the five static parsers returns normally, for every enumeration order and
country set; only a fully empty file makes the header skip raise. -/
theorem c9_parsers_total_on_nonempty :
    ∀ (e1 : List String → List String)
      (e2 e3 : List (String × String) → List (String × String))
      (e4 : List (String × String × PyFloat) → List (String × String × PyFloat))
      (e5 : List (String × String × String × String × String) →
        List (String × String × String × String × String))
      (valid : List String) (hd : String) (body : List String),
      (parse_regions e1 (hd :: body)).isOk = true ∧
      (parse_countries e2 (hd :: body)).isOk = true ∧
      (parse_productcategories e3 (hd :: body)).isOk = true ∧
      (parse_products e4 (hd :: body)).isOk = true ∧
      (parse_customers e5 valid (hd :: body)).isOk = true := by
  intro e1 e2 e3 e4 e5 valid hd body
  exact ⟨rfl, rfl, rfl, rfl, rfl⟩

/-- C10: the customer mapping is keyed on the joined full name only: its
keys are unique, a lookup returns the id of the last read-back row with
that full name (so of two rows sharing a name exactly one id survives), a
full-name hit in the mapping is exactly what the order loop uses as the
customer id, and every tuple a line produces carries the one resolved id. -/
theorem c10_cust_map_full_name_collapse :
    (∀ rows, ((mk_cust_map rows).map Prod.fst).Nodup) ∧
    (∀ rows k, alookup k (mk_cust_map rows) =
      ((rows.reverse.find? (fun r => decide (cust_key r.1 r.2.1 = k))).map (fun r => r.2.2))) ∧
    (∀ cm com db name country cid, name ≠ "" →
      alookup (order_cust_key name) cm = some cid →
      resolve_customer cm com db name country = some cid) ∧
    (∀ cm com pm db t row, row ∈ process_order_line cm com pm db t →
      ∃ cid, resolve_customer cm com db t.name t.country = some cid ∧ row.1 = cid) := by
  refine ⟨?_, ?_, ?_, ?_⟩
  · intro rows
    exact dict_keys_nodup _ [] (by simp)
  · intro rows k
    unfold mk_cust_map dict_of_pairs
    rw [alookup_foldl_dinsert]
    simp only [alookup, Option.or_none]
    rw [← List.map_reverse, List.find?_map, Option.map_map]
    rfl
  · intro cm com db name country cid hn hk
    simp only [resolve_customer, if_neg hn, hk]
  · intro cm com pm db t row hrow
    obtain ⟨cid, hres, i, hsub⟩ := process_order_line_mem hrow
    exact ⟨cid, hres, (order_sub_record_shape hsub).1⟩

/-- C10 witness: two read-back rows sharing the full name Jane Doe leave
only the later id in the mapping, and the order loop resolves that id. -/
theorem c10_cust_map_full_name_collapse_witness :
    alookup "Jane Doe" (mk_cust_map [("Jane", "Doe", 1), ("Jane", "Doe", 5)]) = some 5 ∧
    resolve_customer (mk_cust_map [("Jane", "Doe", 1), ("Jane", "Doe", 5)]) []
      (fun _ _ _ => none) "Jane Doe" "USA" = some 5 :=
  ⟨by decide,
    c10_cust_map_full_name_collapse.2.2.1
      (mk_cust_map [("Jane", "Doe", 1), ("Jane", "Doe", 5)]) [] (fun _ _ _ => none)
      "Jane Doe" "USA" 5 (by decide) (by decide)⟩

/-- C4: date normalization tries, in order, the strict eight-digit parse
(applied exactly when the stripped value is eight digits, with no further
fallback), then ISO format, then the dashed strptime format; a sub-record
whose date is missing or unparseable yields no tuple, and the fate of a
sub-record depends only on its own position in the date list, leaving the
other sub-records of the line unaffected. -/
theorem c4_date_normalization :
    (∀ raw, ((pyStrip raw).data.length = 8 ∧ (pyStrip raw).data.all pyIsDigit) →
      normalize_date raw = strptime_Ymd8 (pyStrip raw)) ∧
    (∀ raw x, ¬((pyStrip raw).data.length = 8 ∧ (pyStrip raw).data.all pyIsDigit) →
      pyFromIso (pyStrip raw) = some x → normalize_date raw = some x) ∧
    (∀ raw, ¬((pyStrip raw).data.length = 8 ∧ (pyStrip raw).data.all pyIsDigit) →
      pyFromIso (pyStrip raw) = none → normalize_date raw = strptime_dashes (pyStrip raw)) ∧
    (∀ pm cid pnames qtys dates i, date_at dates i = none →
      order_sub_record pm cid pnames qtys dates i = none) ∧
    (∀ (dates : List String) i, dates.length ≤ i → date_at dates i = none) ∧
    (∀ pm cid pnames qtys dates dates2 i, dates.getD i "" = dates2.getD i "" →
      (i < dates.length ↔ i < dates2.length) →
      order_sub_record pm cid pnames qtys dates i = order_sub_record pm cid pnames qtys dates2 i) := by
  refine ⟨?_, ?_, ?_, ?_, ?_, ?_⟩
  · intro raw h
    simp only [normalize_date, if_pos h]
  · intro raw x h hiso
    simp only [normalize_date, if_neg h, hiso]
  · intro raw h hiso
    simp only [normalize_date, if_neg h, hiso]
  · intro pm cid pnames qtys dates i hd
    simp only [order_sub_record, hd]
    by_cases hp : pnames.getD i "" = ""
    · rw [if_pos hp]
    · rw [if_neg hp]
  · intro dates i h
    simp [date_at, Nat.not_lt.mpr h]
  · intro pm cid pnames qtys dates dates2 i h1 h2
    have hdd : date_at dates i = date_at dates2 i := by
      unfold date_at
      by_cases hlt : i < dates.length
      · rw [if_pos hlt, if_pos (h2.mp hlt), h1]
      · rw [if_neg hlt, if_neg (fun hh => hlt (h2.mpr hh))]
    simp only [order_sub_record, hdd]

/-- C4 witness: the example line keeps the Widget sub-record with date
2023-01-01 and drops the Gadget sub-record whose date is unparseable. -/
theorem c4_date_normalization_witness :
    order_sub_record [("Widget", 3), ("Gadget", 4)] 7 ["Widget", "Gadget"] ["3", "5"]
      ["20230101", "bad-date"] 1 = none ∧
    process_order_line [("Jane Doe", 7)] [("USA", 2)] [("Widget", 3), ("Gadget", 4)]
      (fun _ _ _ => none)
      ⟨"Jane Doe", "123 Elm", "Springfield", "USA", "Widget;Gadget", "10.0;20.0", "Toys;Tools",
        "3;5", "20230101;bad-date"⟩ = [(7, 3, ⟨2023, 1, 1⟩, 3)] :=
  ⟨c4_date_normalization.2.2.2.1 [("Widget", 3), ("Gadget", 4)] 7 ["Widget", "Gadget"]
      ["3", "5"] ["20230101", "bad-date"] 1 (by decide), by decide⟩

/-- Permutation of stable sorts of two enumerations of one underlying set. -/
theorem insertionSort_enum_perm {α : Type} (r : α → α → Prop) [DecidableRel r]
    (e1 e2 : List α → List α) (h1 : ∀ l, (e1 l).Perm l) (h2 : ∀ l, (e2 l).Perm l)
    (s : List α) : (List.insertionSort r (e1 s)).Perm (List.insertionSort r (e2 s)) :=
  ((List.perm_insertionSort r (e1 s)).trans (h1 s)).trans
    ((h2 s).symm.trans (List.perm_insertionSort r (e2 s)).symm)

/-- Equality of stable sorts of two enumerations under the full string
order, which is antisymmetric. -/
theorem insertionSort_str_enum_eq (e1 e2 : List String → List String)
    (h1 : ∀ l, (e1 l).Perm l) (h2 : ∀ l, (e2 l).Perm l) (s : List String) :
    List.insertionSort StrLeP (e1 s) = List.insertionSort StrLeP (e2 s) :=
  List.eq_of_perm_of_sorted (insertionSort_enum_perm StrLeP e1 e2 h1 h2 s)
    (List.sorted_insertionSort StrLeP (e1 s)) (List.sorted_insertionSort StrLeP (e2 s))

/-- C2 counterexample: the identity and the reversal are both legitimate
enumeration orders of the two-element category set of this input, yet the
returned sequences differ, because the two pairs share the category-name
sort key and the stable sort keeps enumeration order on ties; so two runs
on identical input bytes can return different sequences. -/
theorem c2_counterexample :
    parse_productcategories (fun l => l.reverse) ["h", "a\tb\tc\td\te\tf\tA;A\tx;y"] ≠
      parse_productcategories (fun l => l) ["h", "a\tb\tc\td\te\tf\tA;A\tx;y"] := by
  intro h
  have h1 : parse_productcategories (fun l => l.reverse) ["h", "a\tb\tc\td\te\tf\tA;A\tx;y"] =
      Except.ok [("A", "y"), ("A", "x")] := rfl
  have h2 : parse_productcategories (fun l => l) ["h", "a\tb\tc\td\te\tf\tA;A\tx;y"] =
      Except.ok [("A", "x"), ("A", "y")] := rfl
  rw [h1, h2] at h
  exact absurd (Except.ok.inj h) (by decide)

/-- C2 amended: each parser output is a function of the input bytes and
the set enumeration order; the regions output is identical for every
enumeration, while for countries, categories, products and customers two
enumerations yield permutations of each other, with tuples sharing the
natural-key sort value ordered by enumeration order. -/
theorem c2_parser_determinism_up_to_ties :
    (∀ e1 e2, (∀ l, (e1 l).Perm l) → (∀ l, (e2 l).Perm l) → ∀ lines,
      parse_regions e1 lines = parse_regions e2 lines) ∧
    (∀ e1 e2, (∀ l, (e1 l).Perm l) → (∀ l, (e2 l).Perm l) → ∀ lines r1 r2,
      parse_countries e1 lines = Except.ok r1 → parse_countries e2 lines = Except.ok r2 →
      r1.Perm r2) ∧
    (∀ e1 e2, (∀ l, (e1 l).Perm l) → (∀ l, (e2 l).Perm l) → ∀ lines r1 r2,
      parse_productcategories e1 lines = Except.ok r1 →
      parse_productcategories e2 lines = Except.ok r2 → r1.Perm r2) ∧
    (∀ e1 e2, (∀ l, (e1 l).Perm l) → (∀ l, (e2 l).Perm l) → ∀ lines r1 r2,
      parse_products e1 lines = Except.ok r1 → parse_products e2 lines = Except.ok r2 →
      r1.Perm r2) ∧
    (∀ e1 e2, (∀ l, (e1 l).Perm l) → (∀ l, (e2 l).Perm l) → ∀ valid lines r1 r2,
      parse_customers e1 valid lines = Except.ok r1 →
      parse_customers e2 valid lines = Except.ok r2 → r1.Perm r2) := by
  refine ⟨?_, ?_, ?_, ?_, ?_⟩
  · intro e1 e2 h1 h2 lines
    cases lines with
    | nil => rfl
    | cons hd body =>
      simp only [parse_regions]
      rw [insertionSort_str_enum_eq e1 e2 h1 h2]
  · intro e1 e2 h1 h2 lines r1 r2 hr1 hr2
    cases lines with
    | nil => cases hr1
    | cons hd body =>
      simp only [parse_countries] at hr1 hr2
      cases hr1
      cases hr2
      exact insertionSort_enum_perm _ e1 e2 h1 h2 _
  · intro e1 e2 h1 h2 lines r1 r2 hr1 hr2
    cases lines with
    | nil => cases hr1
    | cons hd body =>
      simp only [parse_productcategories] at hr1 hr2
      cases hr1
      cases hr2
      exact insertionSort_enum_perm _ e1 e2 h1 h2 _
  · intro e1 e2 h1 h2 lines r1 r2 hr1 hr2
    cases lines with
    | nil => cases hr1
    | cons hd body =>
      simp only [parse_products] at hr1 hr2
      cases hr1
      cases hr2
      exact insertionSort_enum_perm _ e1 e2 h1 h2 _
  · intro e1 e2 h1 h2 valid lines r1 r2 hr1 hr2
    cases lines with
    | nil => cases hr1
    | cons hd body =>
      simp only [parse_customers] at hr1 hr2
      cases hr1
      cases hr2
      exact insertionSort_enum_perm _ e1 e2 h1 h2 _

/-- C2 witness: the regions output is unchanged when the enumeration is
reversed. -/
theorem c2_parser_determinism_up_to_ties_witness :
    parse_regions (fun l => l) ["h", "a\tb\tc\tX\tRegionB", "a\tb\tc\tX\tRegionA"] =
      parse_regions (fun l => l.reverse) ["h", "a\tb\tc\tX\tRegionB", "a\tb\tc\tX\tRegionA"] :=
  c2_parser_determinism_up_to_ties.1 (fun l => l) (fun l => l.reverse)
    (fun l => List.Perm.refl l) (fun l => List.reverse_perm l)
    ["h", "a\tb\tc\tX\tRegionB", "a\tb\tc\tX\tRegionA"]
